import Mathlib

/-!
Verification development for the Pac-Man search repository
(`pacman_problem.py`, `strategies.py`, `search.py`).

The Python source is shallowly embedded here:

* Python tuples `(x, y)` of unbounded ints become `Int × Int`.
* Python `frozenset` becomes `Finset (Int × Int)`; sets built by
  comprehension become `Finset.image`.
* `PacmanProblem` attributes assigned in `_parse_layout` become fields of a
  structure `PacmanProblem`; the precomputed per-rotation lists
  (`rotated_walls`, `rotated_teleports`, `rotated_exit`,
  `rotated_dimensions`) become functions of the rotation index, which for
  indices 0..3 agree with the Python lists.
* Python `while` loops that terminate because an integer quantity shrinks
  (the ghost-corridor walks, the BFS queue, Prim's loop) are written as
  structural recursions on exactly that quantity (an explicit counter that
  matches the loop bound), so every definition is executable.
* Memoisation caches (`_ghost_pos_cache`, `_ghost_seed_cache`,
  `_distance_eff_cache`, `_mst_cache`, `_heuristic_cache`) are dropped:
  they only replay pure computations.
-/

namespace PacmanSpec

/-- A grid coordinate, Python's `Tuple[int, int]`. -/
abbrev Coordinate := Int × Int

/-- `_transform_pos` (pacman_problem.py lines 9-19): rotate a position
clockwise by 90° times `rotationIndex`. -/
def transformPos (pos : Coordinate) (rotationIndex : Nat) (width height : Int) :
    Coordinate :=
  let r := rotationIndex % 4
  if r = 0 then pos
  else if r = 1 then (pos.2, width - 1 - pos.1)
  else if r = 2 then (width - 1 - pos.1, height - 1 - pos.2)
  else (height - 1 - pos.2, pos.1)

/-- `_inverse_transform_pos` (pacman_problem.py lines 22-33). -/
def inverseTransformPos (pos : Coordinate) (rotationIndex : Nat) (width height : Int) :
    Coordinate :=
  let r := rotationIndex % 4
  if r = 0 then pos
  else if r = 1 then (width - 1 - pos.2, pos.1)
  else if r = 2 then (width - 1 - pos.1, height - 1 - pos.2)
  else (pos.2, height - 1 - pos.1)

/-- `_rotate_points` (pacman_problem.py lines 36-37). -/
def rotatePoints (points : Finset Coordinate) (rotationIndex : Nat) (width height : Int) :
    Finset Coordinate :=
  points.image (fun p => transformPos p rotationIndex width height)

/-- `PacmanSearchState` (pacman_problem.py lines 40-48).  `pie_timer` is kept
as `Nat`: the code initialises it to 0 and only ever assigns
`max(0, t - 1)` or the pie duration, so it is never negative; `Nat`
subtraction models the `max(0, ·)` floor. -/
structure PacmanSearchState where
  pos : Coordinate
  food_left : Finset Coordinate
  pies_left : Finset Coordinate
  pie_timer : Nat
  step_mod_cycle : Nat
  broken_walls : Finset Coordinate
deriving DecidableEq

/-- The attributes of a constructed `PacmanProblem`
(pacman_problem.py `__init__` / `_parse_layout`).  Construction from layout
text is outside the claims; concrete instances below list the field values
`_parse_layout` produces for the commented layout (including the
teleport-corner fallback of lines 106-115). -/
structure PacmanProblem where
  width : Int
  height : Int
  base_walls : Finset Coordinate
  initial_food : Finset Coordinate
  initial_pies : Finset Coordinate
  teleports_base : Finset Coordinate
  ghosts : List Coordinate
  exit : Option Coordinate
  initial_pacman_pos : Coordinate
deriving DecidableEq

/-- `ROTATION_PERIOD` (pacman_problem.py line 59). -/
def ROTATION_PERIOD : Nat := 30

/-- `ROTATION_CYCLE` (pacman_problem.py line 60). -/
def ROTATION_CYCLE : Nat := ROTATION_PERIOD * 4

/-- `self.pie_duration = 5` (pacman_problem.py line 126). -/
def pieDuration : Nat := 5

/-- `rotated_dimensions` (pacman_problem.py lines 129-134): the Python list
`[(w,h),(h,w),(w,h),(h,w)]` indexed by rotation, as a function. -/
def rotatedDimensions (P : PacmanProblem) (rotation : Nat) : Int × Int :=
  if rotation % 2 = 0 then (P.width, P.height) else (P.height, P.width)

/-- `rotated_walls` (pacman_problem.py lines 135-137). -/
def rotatedWalls (P : PacmanProblem) (rotation : Nat) : Finset Coordinate :=
  rotatePoints P.base_walls rotation P.width P.height

/-- `rotated_teleports` (pacman_problem.py lines 138-140). -/
def rotatedTeleports (P : PacmanProblem) (rotation : Nat) : Finset Coordinate :=
  rotatePoints P.teleports_base rotation P.width P.height

/-- `rotated_exit` (pacman_problem.py lines 141-143). -/
def rotatedExit (P : PacmanProblem) (rotation : Nat) : Option Coordinate :=
  P.exit.map (fun e => transformPos e rotation P.width P.height)

/-- `_current_rotation` (pacman_problem.py lines 146-147). -/
def currentRotation (stepModCycle : Nat) : Nat :=
  (stepModCycle / ROTATION_PERIOD) % 4

/-- `_effective_walls` (pacman_problem.py lines 179-186); the identical
helper in strategies.py lines 21-27 is the same code. -/
def effectiveWalls (P : PacmanProblem) (rotation : Nat)
    (brokenWallsBase : Finset Coordinate) : Finset Coordinate :=
  if brokenWallsBase = ∅ then rotatedWalls P rotation
  else
    rotatedWalls P rotation \
      brokenWallsBase.image (fun b => transformPos b rotation P.width P.height)

/-- The leftward corridor walk of `_ghost_positions_continuous`
(pacman_problem.py lines 240-241): `while L - 1 >= 0 and (L-1, sy) not in
walls_rot: L -= 1`.  The counter starts at `x.toNat`, the exact number of
decrements after which `L - 1 >= 0` must fail, so the recursion halts
exactly when the `while` condition does. -/
def walkLeft (wallsRot : Finset Coordinate) (sy : Int) : Nat → Int → Int
  | 0, x => x
  | n + 1, x =>
    if 0 ≤ x - 1 ∧ (x - 1, sy) ∉ wallsRot then walkLeft wallsRot sy n (x - 1) else x

/-- The rightward corridor walk (pacman_problem.py lines 242-243):
`while R + 1 < width_rot and (R+1, sy) not in walls_rot: R += 1`.  The
counter starts at `(widthRot - 1 - x).toNat`, the number of increments
after which `R + 1 < width_rot` must fail. -/
def walkRight (wallsRot : Finset Coordinate) (sy widthRot : Int) : Nat → Int → Int
  | 0, x => x
  | n + 1, x =>
    if x + 1 < widthRot ∧ (x + 1, sy) ∉ wallsRot then walkRight wallsRot sy widthRot n (x + 1)
    else x

/-- One ghost's advance by `s` steps inside the current rotation window
(pacman_problem.py lines 235-253, the `s > 0` per-seed body). -/
def advanceGhost (wallsRot : Finset Coordinate) (widthRot heightRot : Int)
    (s : Nat) (seed : Coordinate) : Coordinate :=
  let sx := seed.1
  let sy := seed.2
  if ¬ (0 ≤ sx ∧ sx < widthRot ∧ 0 ≤ sy ∧ sy < heightRot) ∨ (sx, sy) ∈ wallsRot then
    (sx, sy)
  else
    let L := walkLeft wallsRot sy sx.toNat sx
    let R := walkRight wallsRot sy widthRot (widthRot - 1 - sx).toNat sx
    let N := R - L + 1
    if N ≤ 1 then (sx, sy)
    else
      let period := (N - 1) * 2
      let offset := sx - L
      let delta := (offset + (s : Int)) % period
      let deltaRef := if delta ≤ N - 1 then delta else period - delta
      (L + deltaRef, sy)

/-- Seed positions at the start of the rotation window with index `n`
(window start step `g0 = ROTATION_PERIOD * n`), in rotation frame `rot`
(pacman_problem.py lines 209-227).  For `g0 > 0` the source recurses into
`_ghost_positions_continuous(g0 - 1, prev_rot, broken)`; since
`(g0 - 1) % ROTATION_PERIOD = ROTATION_PERIOD - 1 ≠ 0`, that call advances
the previous window's seeds by `ROTATION_PERIOD - 1` steps in the previous
rotation, which is what the `n + 1` case writes out.  `(rot - 1) % 4` of
Python equals `(rot + 3) % 4` on naturals. -/
def ghostSeedsW (P : PacmanProblem) (broken : Finset Coordinate) (rot : Nat) :
    Nat → List Coordinate
  | 0 => P.ghosts.map (fun gp => transformPos gp rot P.width P.height)
  | n + 1 =>
    let prevRot := (rot + 3) % 4
    let prevSeeds := ghostSeedsW P broken prevRot n
    let prevPositions := prevSeeds.map
      (advanceGhost (effectiveWalls P prevRot broken)
        (rotatedDimensions P prevRot).1 (rotatedDimensions P prevRot).2
        (ROTATION_PERIOD - 1))
    prevPositions.map
      (fun p => transformPos (inverseTransformPos p prevRot P.width P.height)
        rot P.width P.height)

/-- `_ghost_positions_continuous` (pacman_problem.py lines 188-256), caches
dropped.  The window index is `g / ROTATION_PERIOD`, i.e. the window
starting at `g0 = g - g % ROTATION_PERIOD`. -/
def ghostPositions (P : PacmanProblem) (g : Nat) (rot : Nat)
    (broken : Finset Coordinate) : List Coordinate :=
  if P.ghosts = [] then []
  else
    let s := g % ROTATION_PERIOD
    let seeds := ghostSeedsW P broken rot (g / ROTATION_PERIOD)
    if s = 0 then seeds
    else
      seeds.map
        (advanceGhost (effectiveWalls P rot broken)
          (rotatedDimensions P rot).1 (rotatedDimensions P rot).2 s)

/-- Lexicographic order on coordinates, used to enumerate a `Finset` as a
list.  Python iterates sets in an arbitrary deterministic order; every use
below is order-insensitive (successor-list order, BFS queue order and
Prim tie-breaks do not affect any claim), so a canonical sorted order is a
faithful enumeration. -/
def lexLe (a b : Coordinate) : Prop :=
  a.1 < b.1 ∨ (a.1 = b.1 ∧ a.2 ≤ b.2)

instance : DecidableRel lexLe := fun a b => by
  unfold lexLe; infer_instance

instance : IsTrans Coordinate lexLe :=
  ⟨by intro a b c hab hbc; unfold lexLe at *; omega⟩

instance : IsAntisymm Coordinate lexLe :=
  ⟨by
    intro a b hab hba
    unfold lexLe at *
    have h1 : a.1 = b.1 := by omega
    have h2 : a.2 = b.2 := by omega
    exact Prod.ext h1 h2⟩

instance : IsTotal Coordinate lexLe :=
  ⟨by intro a b; unfold lexLe; omega⟩

/-- Enumerate a coordinate `Finset` as a (sorted) list, by insertion sort
(structurally recursive, hence evaluable inside the kernel). -/
def finsetList (s : Finset Coordinate) : List Coordinate :=
  Quot.liftOn s.val (fun l => List.insertionSort lexLe l)
    (fun _ _ h =>
      List.eq_of_perm_of_sorted
        ((List.perm_insertionSort lexLe _).trans
          (h.trans (List.perm_insertionSort lexLe _).symm))
        (List.sorted_insertionSort lexLe _) (List.sorted_insertionSort lexLe _))

/-- Membership in the enumeration is membership in the set. -/
theorem mem_finsetList {s : Finset Coordinate} {a : Coordinate} :
    a ∈ finsetList s ↔ a ∈ s := by
  rcases s with ⟨m, nd⟩
  induction m using Quotient.inductionOn with
  | h l =>
    show a ∈ List.insertionSort lexLe l ↔ _
    rw [(List.perm_insertionSort lexLe l).mem_iff]
    rfl

/-- The enumeration has one entry per set element. -/
theorem length_finsetList {s : Finset Coordinate} :
    (finsetList s).length = s.card := by
  rcases s with ⟨m, nd⟩
  induction m using Quotient.inductionOn with
  | h l =>
    show (List.insertionSort lexLe l).length = _
    rw [(List.perm_insertionSort lexLe l).length_eq]
    rfl

/-- `get_initial_state` (pacman_problem.py lines 259-267). -/
def getInitialState (P : PacmanProblem) : PacmanSearchState :=
  { pos := P.initial_pacman_pos
    food_left := P.initial_food
    pies_left := P.initial_pies
    pie_timer := 0
    step_mod_cycle := 0
    broken_walls := ∅ }

/-- `is_goal` (pacman_problem.py lines 269-276). -/
def isGoal (P : PacmanProblem) (state : PacmanSearchState) : Bool :=
  if ¬ state.food_left = ∅ then false
  else if P.exit = none then true
  else decide (some state.pos = rotatedExit P (currentRotation state.step_mod_cycle))

/-- `_rotate_state_components` (pacman_problem.py lines 149-177). -/
def rotateStateComponents (P : PacmanProblem) (pos : Coordinate)
    (food pies : Finset Coordinate) (fromRotation toRotation : Nat) :
    Coordinate × Finset Coordinate × Finset Coordinate :=
  if fromRotation = toRotation then (pos, food, pies)
  else
    let reframe := fun (c : Coordinate) =>
      transformPos (inverseTransformPos c fromRotation P.width P.height)
        toRotation P.width P.height
    (reframe pos, food.image reframe, pies.image reframe)

/-- The five components returned by the nested `rotate_after_steps` of
`get_successors` (pacman_problem.py lines 309-327). -/
structure RotStep where
  nextRotation : Nat
  pos : Coordinate
  food : Finset Coordinate
  pies : Finset Coordinate
  ghosts : Finset Coordinate
deriving DecidableEq

/-- `rotate_after_steps` (pacman_problem.py lines 309-327).  `ghostNext` is
the enclosing function's `ghost_positions_next` (computed with the parent's
broken-walls set); `brokenBase` is the `broken_walls_base` argument.  The
unconditional call to `rotateStateComponents` is the source's conditional
call: `rotateStateComponents` returns its inputs unchanged when the two
rotations agree. -/
def rotateAfterSteps (P : PacmanProblem) (currentRotationIdx : Nat) (nextGCost : Nat)
    (ghostNext : List Coordinate) (pos : Coordinate) (food pies : Finset Coordinate)
    (nextStepMod : Nat) (brokenBase : Finset Coordinate) : RotStep :=
  let nextRot := currentRotation nextStepMod
  let comps := rotateStateComponents P pos food pies currentRotationIdx nextRot
  let ghostSet :=
    if nextRot = currentRotationIdx then ghostNext.toFinset
    else (ghostPositions P nextGCost nextRot brokenBase).toFinset
  { nextRotation := nextRot
    pos := comps.1
    food := comps.2.1
    pies := comps.2.2
    ghosts := ghostSet }

/-- Action labels.  The source uses the strings `"North"`, `"South"`,
`"West"`, `"East"` and `"Teleport to (x, y)"`; an inductive with one
constructor per label (the teleport label carrying its destination
coordinate, which is what makes the string unique) is the same vocabulary. -/
inductive PacAction where
  | North : PacAction
  | South : PacAction
  | West : PacAction
  | East : PacAction
  | teleportTo : Coordinate → PacAction
deriving DecidableEq

/-- The `actions` dict of `get_successors` (pacman_problem.py lines
302-307), in its insertion order. -/
def dirActions : List (PacAction × (Int × Int)) :=
  [(PacAction.North, (0, -1)), (PacAction.South, (0, 1)),
   (PacAction.West, (-1, 0)), (PacAction.East, (1, 0))]

/-- The body of the directional-action loop of `get_successors`
(pacman_problem.py lines 331-380) for one action, as an `Option`: `none`
is the source's `continue`. -/
def dirSuccessor (P : PacmanProblem) (s : PacmanSearchState) (g : Nat)
    (name : PacAction) (d : Int × Int) : Option (PacAction × PacmanSearchState) :=
  let curRot := currentRotation s.step_mod_cycle
  let widthRot := (rotatedDimensions P curRot).1
  let heightRot := (rotatedDimensions P curRot).2
  let curWalls := effectiveWalls P curRot s.broken_walls
  let ghostCur := ghostPositions P g curRot s.broken_walls
  let ghostNext := ghostPositions P (g + 1) curRot s.broken_walls
  let nextStepMod := (s.step_mod_cycle + 1) % ROTATION_CYCLE
  let nx := s.pos.1 + d.1
  let ny := s.pos.2 + d.2
  if ¬ (0 ≤ nx ∧ nx < widthRot ∧ 0 ≤ ny ∧ ny < heightRot) then none
  else if (nx, ny) ∈ curWalls ∧ s.pie_timer = 0 then none
  else if (nx, ny) ∈ ghostCur ∨ (nx, ny) ∈ ghostNext then none
  else if ((nx, ny), s.pos) ∈ ghostCur.zip ghostNext then none
  else
    let brokeWallBase : Option Coordinate :=
      if (nx, ny) ∈ curWalls then
        some (inverseTransformPos (nx, ny) curRot P.width P.height)
      else none
    let pieTimer' := if (nx, ny) ∈ s.pies_left then pieDuration else s.pie_timer - 1
    let nextPies :=
      if (nx, ny) ∈ s.pies_left then s.pies_left.erase (nx, ny) else s.pies_left
    let nextFood := s.food_left.erase (nx, ny)
    let nextBroken :=
      match brokeWallBase with
      | none => s.broken_walls
      | some b => insert b s.broken_walls
    let r := rotateAfterSteps P curRot (g + 1) ghostNext (nx, ny) nextFood nextPies
      nextStepMod nextBroken
    if r.pos ∈ r.ghosts then none
    else
      some (name,
        { pos := r.pos
          food_left := r.food
          pies_left := r.pies
          pie_timer := pieTimer'
          step_mod_cycle := nextStepMod
          broken_walls := nextBroken })

/-- The body of the teleport loop of `get_successors` (pacman_problem.py
lines 384-420) for one target tile. -/
def telSuccessor (P : PacmanProblem) (s : PacmanSearchState) (g : Nat)
    (target : Coordinate) : Option (PacAction × PacmanSearchState) :=
  let curRot := currentRotation s.step_mod_cycle
  let ghostCur := ghostPositions P g curRot s.broken_walls
  let ghostNext := ghostPositions P (g + 1) curRot s.broken_walls
  let nextStepMod := (s.step_mod_cycle + 1) % ROTATION_CYCLE
  if target = s.pos ∨ target ∈ ghostCur ∨ target ∈ ghostNext then none
  else if (target, s.pos) ∈ ghostCur.zip ghostNext then none
  else
    let pieTimer' := if target ∈ s.pies_left then pieDuration else s.pie_timer - 1
    let nextPies :=
      if target ∈ s.pies_left then s.pies_left.erase target else s.pies_left
    let nextFood := s.food_left.erase target
    let r := rotateAfterSteps P curRot (g + 1) ghostNext target nextFood nextPies
      nextStepMod s.broken_walls
    if r.pos ∈ r.ghosts then none
    else
      some (PacAction.teleportTo target,
        { pos := r.pos
          food_left := r.food
          pies_left := r.pies
          pie_timer := pieTimer'
          step_mod_cycle := nextStepMod
          broken_walls := s.broken_walls })

/-- `get_successors` (pacman_problem.py lines 278-422): the four
directional candidates in dict order, then the teleport candidates when
standing on a teleport tile. -/
def getSuccessors (P : PacmanProblem) (s : PacmanSearchState) (g : Nat) :
    List (PacAction × PacmanSearchState) :=
  let dirSuccs := dirActions.filterMap (fun nd => dirSuccessor P s g nd.1 nd.2)
  let curRot := currentRotation s.step_mod_cycle
  let telSuccs :=
    if s.pos ∈ rotatedTeleports P curRot then
      (finsetList (rotatedTeleports P curRot)).filterMap (fun t => telSuccessor P s g t)
    else []
  dirSuccs ++ telSuccs

/-- Look up the successor carrying a given action label. -/
def findAction (a : PacAction) :
    List (PacAction × PacmanSearchState) → Option PacmanSearchState
  | [] => none
  | (b, st) :: rest => if b = a then some st else findAction a rest

/-- Replay an action sequence through `getSuccessors`, threading the g-cost
the way `a_star_search` (search.py lines 56-57) does. -/
def applyPlan (P : PacmanProblem) :
    PacmanSearchState → Nat → List PacAction → Option PacmanSearchState
  | s, _, [] => some s
  | s, g, a :: rest =>
    match findAction a (getSuccessors P s g) with
    | none => none
    | some s' => applyPlan P s' (g + 1) rest

/-!
Heuristic engine (strategies.py).  Python's `math.inf` marks an absent
distance; it is embedded as `none : Option Nat`, and the source's explicit
`0 if best is inf else best` conversions become `Option.getD 0`.
-/

/-- Minimum of two possibly-infinite distances (`none` = `inf`). -/
def minO : Option Nat → Option Nat → Option Nat
  | none, r => r
  | some v, none => some v
  | some v, some w => some (min v w)

/-- Minimum of a list of possibly-infinite distances (`none` = `inf`),
`none` when the list is empty or all-infinite: the semantics of
`min(..., default=inf)` over `dist_map.get(·, inf)` values. -/
def minD (l : List (Option Nat)) : Option Nat := l.foldr minO none

/-- One BFS expansion step for a neighbour or teleport target
(strategies.py lines 47-63): extend the distance map and the queue if the
tile is new (and, for grid moves, in bounds and not a wall). -/
def bfsVisit (distQ : List (Coordinate × Nat) × List Coordinate)
    (c : Coordinate) (dist : Nat) : List (Coordinate × Nat) × List Coordinate :=
  if (List.lookup c distQ.1).isSome then distQ
  else (distQ.1 ++ [(c, dist)], distQ.2 ++ [c])

/-- The BFS `while q:` loop of `_distance_map_effective` (strategies.py
lines 42-63).  The counter bounds the number of queue pops: every popped
element was enqueued together with a fresh key of the distance map, all
keys are in-bounds tiles or teleport tiles or the start, so
`width*height + 1` pops always exhaust the queue; with that counter the
recursion halts exactly when `q` empties. -/
def bfsLoop (walls teleports : Finset Coordinate) (width height : Int) :
    Nat → List Coordinate → List (Coordinate × Nat) → List (Coordinate × Nat)
  | 0, _, distances => distances
  | _ + 1, [], distances => distances
  | fuel + 1, current :: q, distances =>
    let base := (List.lookup current distances).getD 0
    let afterMoves :=
      [((0 : Int), (1 : Int)), (0, -1), (1, 0), (-1, 0)].foldl
        (fun acc d =>
          let nx := current.1 + d.1
          let ny := current.2 + d.2
          if ¬ (0 ≤ nx ∧ nx < width ∧ 0 ≤ ny ∧ ny < height) then acc
          else if (nx, ny) ∈ walls then acc
          else bfsVisit acc (nx, ny) (base + 1))
        (distances, q)
    let afterTeleports :=
      if current ∈ teleports then
        (finsetList teleports).foldl
          (fun acc target =>
            if target = current then acc else bfsVisit acc target (base + 1))
          afterMoves
      else afterMoves
    bfsLoop walls teleports width height fuel afterTeleports.2 afterTeleports.1

/-- `_distance_map_effective` (strategies.py lines 30-66), cache dropped.
The distance map is an association list (Python dict) from reached tiles to
their BFS distance from `start`. -/
def distanceMapEffective (rotation : Nat) (start : Coordinate) (P : PacmanProblem)
    (brokenWalls : Finset Coordinate) : List (Coordinate × Nat) :=
  let width := (rotatedDimensions P rotation).1
  let height := (rotatedDimensions P rotation).2
  let walls := effectiveWalls P rotation brokenWalls
  let teleports := rotatedTeleports P rotation
  bfsLoop walls teleports width height ((width * height).toNat + 1) [start] [(start, 0)]

/-- `_nearest_food_distance` (strategies.py lines 69-75). -/
def nearestFoodDistance (rotation : Nat) (state : PacmanSearchState)
    (P : PacmanProblem) : Nat :=
  if state.food_left = ∅ then 0
  else
    let distMap := distanceMapEffective rotation state.pos P state.broken_walls
    let best := minD ((finsetList state.food_left).map (fun food => List.lookup food distMap))
    best.getD 0

/-- `dist < best_cost` of Prim's scan (strategies.py line 99) where
`best_cost` is `inf` (`none`) until first set; an `inf` candidate distance
never passes the strict `<`, so only `some` candidates appear here. -/
def distLtN (d : Nat) : Option (Nat × Coordinate) → Bool
  | none => true
  | some (b, _) => d < b

/-- The inner double loop of Prim's algorithm (strategies.py lines 91-101):
scan tree vertices `v` and outside foods `u` in order, keeping the first
strictly-smaller candidate edge. -/
def primScan (rotation : Nat) (P : PacmanProblem) (broken : Finset Coordinate)
    (foodsList visited : List Coordinate) : Option (Nat × Coordinate) :=
  visited.foldl
    (fun acc v =>
      let distMap := distanceMapEffective rotation v P broken
      foodsList.foldl
        (fun acc2 u =>
          if u ∈ visited then acc2
          else
            match List.lookup u distMap with
            | none => acc2
            | some dist => if distLtN dist acc2 then some (dist, u) else acc2)
        acc)
    none

/-- The `while len(visited) < len(foods_list):` loop of `_mst_cost`
(strategies.py lines 90-106).  Each pass either breaks (no reachable
outside food) or moves one food into `visited`, so `foodsList.length`
passes always reach the length test; the counter makes that bound
explicit. -/
def primLoop (rotation : Nat) (P : PacmanProblem) (broken : Finset Coordinate)
    (foodsList : List Coordinate) : Nat → List Coordinate → Nat → Nat
  | 0, _, total => total
  | fuel + 1, visited, total =>
    if foodsList.length ≤ visited.length then total
    else
      match primScan rotation P broken foodsList visited with
      | none => total
      | some (bestCost, bestFood) =>
        primLoop rotation P broken foodsList fuel (visited ++ [bestFood]) (total + bestCost)

/-- `_mst_cost` (strategies.py lines 78-109), cache dropped. -/
def mstCost (rotation : Nat) (foods : Finset Coordinate) (P : PacmanProblem)
    (broken : Finset Coordinate) : Nat :=
  if foods.card ≤ 1 then 0
  else
    match finsetList foods with
    | [] => 0
    | f0 :: _ =>
      primLoop rotation P broken (finsetList foods) (finsetList foods).length [f0] 0

/-- `_exit_tail` (strategies.py lines 112-123). -/
def exitTail (rotation : Nat) (foods : Finset Coordinate) (P : PacmanProblem)
    (broken : Finset Coordinate) : Nat :=
  if P.exit = none ∨ foods = ∅ then 0
  else
    match rotatedExit P rotation with
    | none => 0
    | some exitPos =>
      let best := minD ((finsetList foods).map
        (fun food => List.lookup exitPos (distanceMapEffective rotation food P broken)))
      best.getD 0

/-- `pacman_heuristic` (strategies.py lines 126-194), cache dropped. -/
def pacmanHeuristic (state : PacmanSearchState) (P : PacmanProblem) : Nat :=
  if 0 < state.pie_timer then 0
  else
    let curRotation := (state.step_mod_cycle / ROTATION_PERIOD) % 4
    let phase := state.step_mod_cycle % ROTATION_PERIOD
    let foodsCur := state.food_left
    let broken := state.broken_walls
    let rotC := fun (c : Coordinate) =>
      transformPos (inverseTransformPos c curRotation P.width P.height)
        ((curRotation + 1) % 4) P.width P.height
    if foodsCur = ∅ then
      match rotatedExit P curRotation with
      | none => 0
      | some exitPosCur =>
        let distMapCur := distanceMapEffective curRotation state.pos P broken
        let bestCur := (List.lookup exitPosCur distMapCur).getD 0
        let kBoundary := if phase = 0 then ROTATION_PERIOD else ROTATION_PERIOD - phase
        let nextRotation := (curRotation + 1) % 4
        let posNext := rotC state.pos
        let bestNext : Option Nat :=
          match rotatedExit P nextRotation with
          | none => none
          | some e => List.lookup e (distanceMapEffective nextRotation posNext P broken)
        min bestCur (kBoundary + bestNext.getD 0)
    else
      let pacToFoodCur := nearestFoodDistance curRotation state P
      let mstCur := mstCost curRotation foodsCur P broken
      let exitTailCur := exitTail curRotation foodsCur P broken
      let bestCur := pacToFoodCur + mstCur + exitTailCur
      let kBoundary := if phase = 0 then ROTATION_PERIOD else ROTATION_PERIOD - phase
      let nextRotation := (curRotation + 1) % 4
      let posNext := rotC state.pos
      let foodsNext := foodsCur.image rotC
      let distMapNext := distanceMapEffective nextRotation posNext P broken
      let bestFoodNext := minD ((finsetList foodsNext).map
        (fun f => List.lookup f distMapNext))
      let pacToFoodNext := bestFoodNext.getD 0
      let mstNext := mstCost nextRotation foodsNext P broken
      let exitTailNext := exitTail nextRotation foodsNext P broken
      let bestNext := kBoundary + pacToFoodNext + mstNext + exitTailNext
      min bestCur bestNext

/-!
Concrete problem instances.  Each lists exactly the attribute values
`PacmanProblem.__init__` produces for the layout text in its comment
(including the interior-corner teleport fallback of `_parse_layout`
lines 106-115: a corner in `{(1,1), (w-2,1), (1,h-2), (w-2,h-2)}` becomes
a teleport iff the layout has no `T` and that corner is not a wall).
-/

/-- 7×7 layout (one food behind a wall, a pie next to the agent, no ghosts,
no exit; all four fallback corners are walls, so no teleports):
```
%%%%%%%
%%. %%%      row 1: walls at (1,1),(3,1),(5,1); open (2,1),(4,1)
%PO%.%%      row 2: P=(1,2), pie=(2,2), wall (3,2), food=(4,2), open (5,2)
%  %  %      row 3: wall (3,3)
%  %  %      row 4: wall (3,4)
%% % %%      row 5: walls (1,5),(5,5); open (2,5),(3,5),(4,5)
%%%%%%%
```
Here row 1 and row 5 are written with their wall/open pattern spelled out:
walls are the border plus `(1,1),(5,1),(1,5),(5,5)` and the column
`(3,1),(3,2),(3,3),(3,4)`; `(3,5)` is the only gap in that column. -/
def P1 : PacmanProblem :=
  { width := 7
    height := 7
    base_walls :=
      {(0,0),(1,0),(2,0),(3,0),(4,0),(5,0),(6,0),
       (0,6),(1,6),(2,6),(3,6),(4,6),(5,6),(6,6),
       (0,1),(0,2),(0,3),(0,4),(0,5),
       (6,1),(6,2),(6,3),(6,4),(6,5),
       (1,1),(5,1),(1,5),(5,5),
       (3,1),(3,2),(3,3),(3,4)}
    initial_food := {(4,2)}
    initial_pies := {(2,2)}
    teleports_base := ∅
    ghosts := []
    exit := none
    initial_pacman_pos := (1,2) }

/-- 6×5 layout (one ghost on a two-tile corridor next to a breakable wall,
a pie below that wall, the agent below the pie):
```
%%%%%%
%G %%%      G=(1,1), open (2,1); walls (3,1),(4,1)
%%%O%%      pie=(3,2)
%%%P%%      P=(3,3)
%%%%%%
```
Fallback teleport corners `(1,1),(4,1),(1,3),(4,3)`: only `(1,1)` is not a
wall, so the teleport set is `{(1,1)}`. -/
def P2 : PacmanProblem :=
  { width := 6
    height := 5
    base_walls :=
      {(0,0),(1,0),(2,0),(3,0),(4,0),(5,0),
       (0,4),(1,4),(2,4),(3,4),(4,4),(5,4),
       (0,1),(3,1),(4,1),(5,1),
       (0,2),(1,2),(2,2),(4,2),(5,2),
       (0,3),(1,3),(2,3),(4,3),(5,3)}
    initial_food := ∅
    initial_pies := {(3,2)}
    teleports_base := {(1,1)}
    ghosts := [(1,1)]
    exit := none
    initial_pacman_pos := (3,3) }

/-- 6×5 layout (no ghosts; an open top corridor for shuttling, one food in
a side pocket that is not on the shuttle path):
```
%%%%%%
%P   %      open (1,1)..(4,1), P=(1,1)
%%%% %      open (4,2)
%.%  %      food=(1,3); open (3,3),(4,3)
%%%%%%
```
Fallback teleport corners `(1,1),(4,1),(1,3),(4,3)` are all open, so all
four are teleports. -/
def P4 : PacmanProblem :=
  { width := 6
    height := 5
    base_walls :=
      {(0,0),(1,0),(2,0),(3,0),(4,0),(5,0),
       (0,4),(1,4),(2,4),(3,4),(4,4),(5,4),
       (0,1),(5,1),
       (0,2),(1,2),(2,2),(3,2),(5,2),
       (0,3),(2,3),(5,3)}
    initial_food := {(1,3)}
    initial_pies := ∅
    teleports_base := {(1,1),(4,1),(1,3),(4,3)}
    ghosts := []
    exit := none
    initial_pacman_pos := (1,1) }

/-- 7×5 layout (agent, two foods and the exit all in separate sealed
one-tile chambers; all fallback corners are walls, so no teleports):
```
%%%%%%%
%%P%.%%      P=(2,1), food=(4,1)
%%%%%%%
%%.%E%%      food=(2,3), exit=(4,3)
%%%%%%%
```
-/
def P9 : PacmanProblem :=
  { width := 7
    height := 5
    base_walls :=
      {(0,0),(1,0),(2,0),(3,0),(4,0),(5,0),(6,0),
       (0,4),(1,4),(2,4),(3,4),(4,4),(5,4),(6,4),
       (0,1),(1,1),(3,1),(5,1),(6,1),
       (0,2),(1,2),(2,2),(3,2),(4,2),(5,2),(6,2),
       (0,3),(1,3),(3,3),(5,3),(6,3)}
    initial_food := {(4,1),(2,3)}
    initial_pies := ∅
    teleports_base := ∅
    ghosts := []
    exit := some (4,3)
    initial_pacman_pos := (2,1) }

/-- The geometry of `P2` with the ghost's start placed on the wall tile
`(3,1)`: a synthetic instance exercising the frozen-seed branch of the
ghost motion model (`_ghost_positions_continuous` lines 236-237). -/
def P10 : PacmanProblem :=
  { P2 with ghosts := [(3,1)] }

/-!
Helper lemmas about the rotation transform.
-/

/-- `inverseTransformPos` undoes `transformPos`, for every integer
coordinate and every rotation index. -/
theorem inverseTransformPos_transformPos (p : Coordinate) (k : Nat) (w h : Int) :
    inverseTransformPos (transformPos p k w h) k w h = p := by
  obtain ⟨x, y⟩ := p
  have h4 : k % 4 = 0 ∨ k % 4 = 1 ∨ k % 4 = 2 ∨ k % 4 = 3 := by omega
  rcases h4 with h4 | h4 | h4 | h4 <;>
    simp [transformPos, inverseTransformPos, h4, Prod.ext_iff]

/-- `transformPos` undoes `inverseTransformPos`, for every integer
coordinate and every rotation index. -/
theorem transformPos_inverseTransformPos (p : Coordinate) (k : Nat) (w h : Int) :
    transformPos (inverseTransformPos p k w h) k w h = p := by
  obtain ⟨x, y⟩ := p
  have h4 : k % 4 = 0 ∨ k % 4 = 1 ∨ k % 4 = 2 ∨ k % 4 = 3 := by omega
  rcases h4 with h4 | h4 | h4 | h4 <;>
    simp [transformPos, inverseTransformPos, h4, Prod.ext_iff]

/-- C3: for every coordinate `(x, y)` inside a `w × h` grid and every
rotation index `k` in `0..3`, the inverse transform applied to the rotated
coordinate returns the coordinate exactly. -/
theorem rotation_invertibility :
    ∀ (x y w h : Int) (k : Nat), 0 ≤ x → x < w → 0 ≤ y → y < h → k < 4 →
      inverseTransformPos (transformPos (x, y) k w h) k w h = (x, y) := by
  intro x y w h k _ _ _ _ _
  exact inverseTransformPos_transformPos (x, y) k w h

/-- Witness for C3 at `(x, y) = (2, 1)`, `w = 5`, `h = 4`, `k = 3`. -/
theorem rotation_invertibility_witness :
    inverseTransformPos (transformPos (2, 1) 3 5 4) 3 5 4 = (2, 1) :=
  rotation_invertibility 2 1 5 4 3 (by decide) (by decide) (by decide) (by decide)
    (by decide)

/-- C8: `is_goal` holds iff the food is gone and (there is no exit, or the
position equals the exit rotated into the state's current rotation frame);
and the result does not depend on `pie_timer`, `pies_left` or
`broken_walls`. -/
theorem goal_test_spec :
    ∀ (P : PacmanProblem) (s : PacmanSearchState),
      (isGoal P s = true ↔
        (s.food_left = ∅ ∧ (P.exit = none ∨
          some s.pos = rotatedExit P (currentRotation s.step_mod_cycle)))) ∧
      (∀ (t : Nat) (pies broken : Finset Coordinate),
        isGoal P { s with pie_timer := t, pies_left := pies, broken_walls := broken } =
          isGoal P s) := by
  intro P s
  refine ⟨?_, fun t pies broken => rfl⟩
  unfold isGoal
  split_ifs with h1 h2 <;> simp_all

/-!
Ghost motion model theorems.
-/

/-- With no ghosts every seed list is empty. -/
theorem ghostSeedsW_nil (P : PacmanProblem) (broken : Finset Coordinate)
    (hg : P.ghosts = []) : ∀ (rot n : Nat), ghostSeedsW P broken rot n = [] := by
  intro rot n
  induction n generalizing rot with
  | zero => simp [ghostSeedsW, hg]
  | succ n ih => simp [ghostSeedsW, ih]

/-- C10: at phase 0 of a rotation window the ghost positions are exactly
the window's seed positions; and a seed that is out of the rotated bounds
or on an effective wall stays put (the ghost is frozen at the seed for the
whole window). -/
theorem frozen_ghosts_at_invalid_seeds :
    ∀ (P : PacmanProblem) (g rot : Nat) (broken : Finset Coordinate),
      (g % ROTATION_PERIOD = 0 →
        ghostPositions P g rot broken = ghostSeedsW P broken rot (g / ROTATION_PERIOD)) ∧
      (∀ (i : Nat) (sx sy : Int),
        (ghostSeedsW P broken rot (g / ROTATION_PERIOD)).get? i = some (sx, sy) →
        (¬ (0 ≤ sx ∧ sx < (rotatedDimensions P rot).1 ∧ 0 ≤ sy ∧
            sy < (rotatedDimensions P rot).2) ∨ (sx, sy) ∈ effectiveWalls P rot broken) →
        (ghostPositions P g rot broken).get? i = some (sx, sy)) := by
  intro P g rot broken
  constructor
  · intro h0
    by_cases hg : P.ghosts = []
    · rw [ghostSeedsW_nil P broken hg]
      simp [ghostPositions, hg]
    · simp [ghostPositions, hg, h0]
  · intro i sx sy hseed hbad
    by_cases hg : P.ghosts = []
    · rw [ghostSeedsW_nil P broken hg] at hseed
      simp at hseed
    · by_cases h0 : g % ROTATION_PERIOD = 0
      · simpa [ghostPositions, hg, h0] using hseed
      · simp only [ghostPositions, if_neg hg, if_neg h0]
        rw [List.get?_map, hseed]
        simp only [Option.map_some', advanceGhost]
        rw [if_pos hbad]

/-- Witness for C10 on `P10` (ghost seeded on the wall tile `(3,1)`):
at phase 0 positions equal seeds, and 5 steps into the window the ghost is
still at its (in-wall) seed. -/
theorem frozen_ghosts_at_invalid_seeds_witness :
    ghostPositions P10 0 0 ∅ = ghostSeedsW P10 ∅ 0 (0 / ROTATION_PERIOD) ∧
    (ghostPositions P10 5 0 ∅).get? 0 = some (3, 1) :=
  ⟨(frozen_ghosts_at_invalid_seeds P10 0 0 ∅).1 (by decide),
   (frozen_ghosts_at_invalid_seeds P10 5 0 ∅).2 0 3 1 (by decide) (Or.inr (by decide))⟩

/-- The spec's `triangle_wave(t, m)`: the sawtooth of period `2m` folded to
reflect at both ends, i.e. `t % 2m` when that residue is at most `m`, and
`2m - t % 2m` otherwise. -/
def triangleWave (t m : Int) : Int :=
  if t % (2 * m) ≤ m then t % (2 * m) else 2 * m - t % (2 * m)

/-- The leftward corridor walk reaches exactly the corridor's left bound:
if every tile of `[L, R]` on row `sy` is open, `L` is either the grid edge
or has a wall to its left, and the walk starts inside `[L, R]` with its
counter set to `x.toNat`, it returns `L`. -/
theorem walkLeft_spec (walls : Finset Coordinate) (sy L R : Int)
    (hopen : ∀ x : Int, L ≤ x → x ≤ R → (x, sy) ∉ walls)
    (hL0 : 0 ≤ L) (hstop : L = 0 ∨ (L - 1, sy) ∈ walls) :
    ∀ (fuel : Nat) (x : Int), x.toNat = fuel → L ≤ x → x ≤ R →
      walkLeft walls sy fuel x = L := by
  intro fuel
  induction fuel with
  | zero =>
    intro x hx hLx _
    have : x = L := by omega
    simp [walkLeft, this]
  | succ n ih =>
    intro x hx hLx hxR
    rcases eq_or_lt_of_le hLx with heq | hlt
    · subst heq
      rcases hstop with h0 | hw
      · rw [walkLeft, if_neg]
        omega
      · rw [walkLeft, if_neg]
        intro hc
        exact hc.2 hw
    · rw [walkLeft, if_pos]
      · exact ih (x - 1) (by omega) (by omega) (by omega)
      · exact ⟨by omega, hopen (x - 1) (by omega) (by omega)⟩

/-- The rightward corridor walk reaches exactly the corridor's right bound,
with its counter set to `(widthRot - 1 - x).toNat`. -/
theorem walkRight_spec (walls : Finset Coordinate) (sy widthRot L R : Int)
    (hopen : ∀ x : Int, L ≤ x → x ≤ R → (x, sy) ∉ walls)
    (hRb : R ≤ widthRot - 1) (hstop : R = widthRot - 1 ∨ (R + 1, sy) ∈ walls) :
    ∀ (fuel : Nat) (x : Int), (widthRot - 1 - x).toNat = fuel → L ≤ x → x ≤ R →
      walkRight walls sy widthRot fuel x = R := by
  intro fuel
  induction fuel with
  | zero =>
    intro x hx _ hxR
    have : x = R := by omega
    simp [walkRight, this]
  | succ n ih =>
    intro x hx hLx hxR
    rcases eq_or_lt_of_le hxR with heq | hlt
    · subst heq
      rcases hstop with h0 | hw
      · rw [walkRight, if_neg]
        omega
      · rw [walkRight, if_neg]
        intro hc
        exact hc.2 hw
    · rw [walkRight, if_pos]
      · exact ih (x + 1) (by omega) (by omega) (by omega)
      · exact ⟨by omega, hopen (x + 1) (by omega) (by omega)⟩

/-- C7: a ghost whose window seed `(sx, sy)` sits inside an open horizontal
corridor `[L, R]` (under the effective walls) moves as the triangle wave
`L + triangle_wave(offset + s, N - 1)` when the corridor length
`N = R - L + 1` exceeds 1, and stays at its seed when `N ≤ 1`. -/
theorem ghost_bounce_motion :
    ∀ (P : PacmanProblem) (g rot : Nat) (broken : Finset Coordinate)
      (i : Nat) (sx sy L R : Int),
      P.ghosts ≠ [] →
      (ghostSeedsW P broken rot (g / ROTATION_PERIOD)).get? i = some (sx, sy) →
      0 ≤ sx → sx < (rotatedDimensions P rot).1 →
      0 ≤ sy → sy < (rotatedDimensions P rot).2 →
      0 ≤ L → L ≤ sx → sx ≤ R → R ≤ (rotatedDimensions P rot).1 - 1 →
      (∀ x : Int, L ≤ x → x ≤ R → (x, sy) ∉ effectiveWalls P rot broken) →
      (L = 0 ∨ (L - 1, sy) ∈ effectiveWalls P rot broken) →
      (R = (rotatedDimensions P rot).1 - 1 ∨
        (R + 1, sy) ∈ effectiveWalls P rot broken) →
      ((1 < R - L + 1 →
        (ghostPositions P g rot broken).get? i =
          some (L + triangleWave (sx - L + ((g % ROTATION_PERIOD : Nat) : Int)) (R - L),
            sy)) ∧
       (R - L + 1 ≤ 1 → (ghostPositions P g rot broken).get? i = some (sx, sy))) := by
  intro P g rot broken i sx sy L R hG hseed hsx0 hsxw hsy0 hsyh hL0 hLsx hsxR hRw
    hopen hstopL hstopR
  by_cases h0 : g % ROTATION_PERIOD = 0
  · constructor
    · intro hN
      rw [h0]
      have htw : triangleWave (sx - L + ((0 : Nat) : Int)) (R - L) = sx - L := by
        unfold triangleWave
        have hmod : (sx - L + ((0 : Nat) : Int)) % (2 * (R - L)) = sx - L := by
          rw [Int.emod_eq_of_lt (by omega) (by omega)]
          omega
        rw [hmod, if_pos (by omega)]
      rw [htw]
      simp only [ghostPositions, if_neg hG, if_pos h0]
      rw [hseed]
      congr 2
      omega
    · intro _
      simpa [ghostPositions, hG, h0] using hseed
  · have hwalkL : walkLeft (effectiveWalls P rot broken) sy sx.toNat sx = L :=
      walkLeft_spec (effectiveWalls P rot broken) sy L R hopen hL0 hstopL sx.toNat sx
        rfl hLsx hsxR
    have hwalkR : walkRight (effectiveWalls P rot broken) sy
        (rotatedDimensions P rot).1 ((rotatedDimensions P rot).1 - 1 - sx).toNat sx = R :=
      walkRight_spec (effectiveWalls P rot broken) sy (rotatedDimensions P rot).1 L R
        hopen hRw hstopR ((rotatedDimensions P rot).1 - 1 - sx).toNat sx rfl hLsx hsxR
    have hadv : (ghostPositions P g rot broken).get? i =
        some (advanceGhost (effectiveWalls P rot broken) (rotatedDimensions P rot).1
          (rotatedDimensions P rot).2 (g % ROTATION_PERIOD) (sx, sy)) := by
      simp only [ghostPositions, if_neg hG, if_neg h0]
      rw [List.get?_map, hseed, Option.map_some']
    have hnotbad :
        ¬ (¬ (0 ≤ sx ∧ sx < (rotatedDimensions P rot).1 ∧ 0 ≤ sy ∧
            sy < (rotatedDimensions P rot).2) ∨
          (sx, sy) ∈ effectiveWalls P rot broken) := by
      push_neg
      exact ⟨⟨hsx0, hsxw, hsy0, hsyh⟩, hopen sx hLsx hsxR⟩
    constructor
    · intro hN
      rw [hadv]
      unfold advanceGhost
      rw [if_neg hnotbad, hwalkL, hwalkR, if_neg (by omega)]
      have hper : (R - L + 1 - 1) * 2 = 2 * (R - L) := by ring
      have hm : R - L + 1 - 1 = R - L := by ring
      unfold triangleWave
      rw [hper, hm]
    · intro hN
      rw [hadv]
      unfold advanceGhost
      rw [if_neg hnotbad, hwalkL, hwalkR, if_pos (by omega)]

/-- Witness for C7: the `P2` ghost (seed `(1,1)`, corridor `[1,2]`) is at
`(2,1)` one step into the first window. -/
theorem ghost_bounce_motion_witness :
    (ghostPositions P2 1 0 ∅).get? 0 = some (2, 1) := by
  have hopen : ∀ x : Int, 1 ≤ x → x ≤ 2 → (x, 1) ∉ effectiveWalls P2 0 ∅ := by
    intro x h1 h2
    interval_cases x <;> decide
  have h := (ghost_bounce_motion P2 1 0 ∅ 0 1 1 1 2 (by decide) (by decide)
    (by decide) (by decide) (by decide) (by decide) (by decide) (by decide)
    (by decide) (by decide) hopen (Or.inr (by decide)) (Or.inr (by decide))).1
    (by decide)
  exact h.trans (by decide)

/-!
Unreachable heuristic components (strategies.py's `inf` handling).
-/

/-- A fold whose step fixes `none` on every list element stays `none`. -/
theorem foldl_fix_none {α : Type}
    (f : Option (Nat × Coordinate) → α → Option (Nat × Coordinate)) :
    ∀ (l : List α), (∀ a ∈ l, f none a = none) → l.foldl f none = none
  | [], _ => rfl
  | a :: l, h => by
    rw [List.foldl_cons, h a (List.mem_cons_self a l)]
    exact foldl_fix_none f l (fun b hb => h b (List.mem_cons_of_mem a hb))

/-- `minD` of an all-`inf` list is `inf`. -/
theorem minD_eq_none : ∀ (l : List (Option Nat)), (∀ o ∈ l, o = none) → minD l = none
  | [], _ => rfl
  | o :: l, h => by
    have hrest := minD_eq_none l (fun b hb => h b (List.mem_cons_of_mem o hb))
    show minO o (minD l) = none
    rw [h o (List.mem_cons_self o l), hrest]
    rfl

/-- C9: each heuristic component treats an unreachable target as
contributing 0 rather than propagating infinity — no reachable food gives
`pac_to_food = 0`, an exit reachable from no food gives `exit_tail = 0`,
mutually unreachable foods give `mst_cost = 0` — and `pacman_heuristic`
always returns a (finite) non-negative value, its return type being `Nat`
in this embedding because every `inf` is converted before returning. -/
theorem unreachable_components_zero :
    ∀ (rotation : Nat) (s : PacmanSearchState) (P : PacmanProblem)
      (foods broken : Finset Coordinate),
      ((∀ f ∈ s.food_left,
          List.lookup f (distanceMapEffective rotation s.pos P s.broken_walls) = none) →
        nearestFoodDistance rotation s P = 0) ∧
      ((∀ f ∈ foods,
          (rotatedExit P rotation).bind
            (fun e => List.lookup e (distanceMapEffective rotation f P broken)) = none) →
        exitTail rotation foods P broken = 0) ∧
      ((∀ u ∈ foods, ∀ v ∈ foods, u ≠ v →
          List.lookup v (distanceMapEffective rotation u P broken) = none) →
        mstCost rotation foods P broken = 0) ∧
      0 ≤ pacmanHeuristic s P := by
  intro rotation s P foods broken
  refine ⟨?_, ?_, ?_, Nat.zero_le _⟩
  · intro hun
    unfold nearestFoodDistance
    split_ifs with hf
    · rfl
    · show (minD (List.map
        (fun food => List.lookup food (distanceMapEffective rotation s.pos P s.broken_walls))
        (finsetList s.food_left))).getD 0 = 0
      rw [minD_eq_none, Option.getD_none]
      intro o ho
      rcases List.mem_map.mp ho with ⟨f, hfmem, rfl⟩
      exact hun f (mem_finsetList.mp hfmem)
  · intro hun
    unfold exitTail
    split_ifs with hf
    · rfl
    · match hre : rotatedExit P rotation with
      | none => rfl
      | some e =>
        show (minD (List.map
          (fun food => List.lookup e (distanceMapEffective rotation food P broken))
          (finsetList foods))).getD 0 = 0
        rw [minD_eq_none, Option.getD_none]
        intro o ho
        rcases List.mem_map.mp ho with ⟨f, hfmem, rfl⟩
        have hb := hun f (mem_finsetList.mp hfmem)
        rwa [hre, Option.some_bind] at hb
  · intro hun
    unfold mstCost
    split_ifs with hcard
    · rfl
    · match hlist : finsetList foods with
      | [] =>
        have hcz : foods.card = 0 := by
          have hl := length_finsetList (s := foods)
          rw [hlist] at hl
          simpa using hl.symm
        omega
      | f0 :: rest =>
        have hf0 : f0 ∈ foods := by
          rw [← mem_finsetList, hlist]
          exact List.mem_cons_self f0 rest
        have hcard2 : (f0 :: rest).length = foods.card := by
          rw [← length_finsetList, hlist]
        show primLoop rotation P broken (f0 :: rest) (rest.length + 1) [f0] 0 = 0
        rw [primLoop]
        have hcond : ¬ (f0 :: rest).length ≤ ([f0] : List Coordinate).length := by
          have h2 : 2 ≤ (f0 :: rest).length := by
            rw [hcard2]; omega
          simp only [List.length_cons, List.length_nil] at *
          omega
        rw [if_neg hcond]
        have hscan : primScan rotation P broken (f0 :: rest) [f0] = none := by
          unfold primScan
          rw [List.foldl_cons, List.foldl_nil]
          apply foldl_fix_none
          intro u hu
          by_cases hu0 : u ∈ ([f0] : List Coordinate)
          · simp only [if_pos hu0]
          · rw [if_neg hu0]
            have hune : u ≠ f0 := by
              intro h
              exact hu0 (by simp [h])
            have humem : u ∈ foods := by
              rw [← mem_finsetList, hlist]
              exact hu
            have hl := hun f0 hf0 u humem (fun h => hune h.symm)
            rw [hl]
        rw [hscan]

/-- Witness for C9 on `P9` (agent, foods and exit in separate sealed
chambers): every component evaluates to 0. -/
theorem unreachable_components_zero_witness :
    nearestFoodDistance 0 (getInitialState P9) P9 = 0 ∧
    exitTail 0 ({(4, 1), (2, 3)} : Finset Coordinate) P9 ∅ = 0 ∧
    mstCost 0 ({(4, 1), (2, 3)} : Finset Coordinate) P9 ∅ = 0 := by
  have h := unreachable_components_zero 0 (getInitialState P9) P9 {(4, 1), (2, 3)} ∅
  exact ⟨h.1 (by decide), h.2.1 (by decide), h.2.2.1 (by decide)⟩

/-- C6: with no active pie and food remaining, `pacman_heuristic` is
`min(h_same, h_next)`: `h_same` is `pac_to_food + mst_cost + exit_tail` in
the current rotation, `h_next` pays `k` waiting steps (`ROTATION_PERIOD`
on a boundary, `ROTATION_PERIOD - phase` otherwise) plus the same three
components in the next rotation frame with position and food transformed
into that frame. -/
theorem phase_aware_heuristic_composition :
    ∀ (P : PacmanProblem) (s : PacmanSearchState),
      s.pie_timer = 0 → s.food_left ≠ ∅ →
      pacmanHeuristic s P =
        min
          (nearestFoodDistance (currentRotation s.step_mod_cycle) s P +
            mstCost (currentRotation s.step_mod_cycle) s.food_left P s.broken_walls +
            exitTail (currentRotation s.step_mod_cycle) s.food_left P s.broken_walls)
          ((if s.step_mod_cycle % ROTATION_PERIOD = 0 then ROTATION_PERIOD
            else ROTATION_PERIOD - s.step_mod_cycle % ROTATION_PERIOD) +
            nearestFoodDistance ((currentRotation s.step_mod_cycle + 1) % 4)
              { s with
                pos := transformPos
                  (inverseTransformPos s.pos (currentRotation s.step_mod_cycle)
                    P.width P.height)
                  ((currentRotation s.step_mod_cycle + 1) % 4) P.width P.height
                food_left := s.food_left.image (fun c => transformPos
                  (inverseTransformPos c (currentRotation s.step_mod_cycle)
                    P.width P.height)
                  ((currentRotation s.step_mod_cycle + 1) % 4) P.width P.height) } P +
            mstCost ((currentRotation s.step_mod_cycle + 1) % 4)
              (s.food_left.image (fun c => transformPos
                (inverseTransformPos c (currentRotation s.step_mod_cycle)
                  P.width P.height)
                ((currentRotation s.step_mod_cycle + 1) % 4) P.width P.height))
              P s.broken_walls +
            exitTail ((currentRotation s.step_mod_cycle + 1) % 4)
              (s.food_left.image (fun c => transformPos
                (inverseTransformPos c (currentRotation s.step_mod_cycle)
                  P.width P.height)
                ((currentRotation s.step_mod_cycle + 1) % 4) P.width P.height))
              P s.broken_walls) := by
  intro P s ht hf
  unfold pacmanHeuristic
  rw [if_neg (by omega), if_neg hf]
  unfold currentRotation
  have himg : Finset.image (fun c => transformPos
      (inverseTransformPos c (s.step_mod_cycle / ROTATION_PERIOD % 4) P.width P.height)
      ((s.step_mod_cycle / ROTATION_PERIOD % 4 + 1) % 4) P.width P.height)
      s.food_left ≠ ∅ := by
    simpa [Finset.image_eq_empty] using hf
  unfold nearestFoodDistance
  dsimp only
  rw [if_neg himg]

/-- Witness for C6 at the `P4` initial state (food reachable through a
teleport edge in one step, so `h_same = 1` wins over `h_next ≥ 30`). -/
theorem phase_aware_heuristic_composition_witness :
    pacmanHeuristic (getInitialState P4) P4 = 1 := by
  have h := phase_aware_heuristic_composition P4 (getInitialState P4) rfl (by decide)
  exact h.trans (by decide)

/-!
Decomposition lemmas for `getSuccessors`.  The following abbreviations
name the updated state components a successful move produces; the spec
lemmas prove they are exactly what `dirSuccessor` / `telSuccessor`
return. -/

/-- Target tile of a directional action. -/
def dirTarget (s : PacmanSearchState) (d : Int × Int) : Coordinate :=
  (s.pos.1 + d.1, s.pos.2 + d.2)

/-- Pies left after stepping onto `t`. -/
def stepPies (s : PacmanSearchState) (t : Coordinate) : Finset Coordinate :=
  if t ∈ s.pies_left then s.pies_left.erase t else s.pies_left

/-- Pie timer after stepping onto `t`. -/
def stepTimer (s : PacmanSearchState) (t : Coordinate) : Nat :=
  if t ∈ s.pies_left then pieDuration else s.pie_timer - 1

/-- Broken walls after a directional step onto `t` (a wall tile is
recorded in base coordinates). -/
def stepBroken (P : PacmanProblem) (s : PacmanSearchState) (t : Coordinate) :
    Finset Coordinate :=
  if t ∈ effectiveWalls P (currentRotation s.step_mod_cycle) s.broken_walls then
    insert (inverseTransformPos t (currentRotation s.step_mod_cycle) P.width P.height)
      s.broken_walls
  else s.broken_walls

/-- The `rotate_after_steps` result for a step onto `t` with broken-wall
set `broken`. -/
def stepRot (P : PacmanProblem) (s : PacmanSearchState) (g : Nat) (t : Coordinate)
    (broken : Finset Coordinate) : RotStep :=
  rotateAfterSteps P (currentRotation s.step_mod_cycle) (g + 1)
    (ghostPositions P (g + 1) (currentRotation s.step_mod_cycle) s.broken_walls)
    t (s.food_left.erase t) (stepPies s t) ((s.step_mod_cycle + 1) % ROTATION_CYCLE)
    broken

/-- Every member of `getSuccessors` comes from a directional candidate or a
teleport candidate. -/
theorem mem_getSuccessors (P : PacmanProblem) (s : PacmanSearchState) (g : Nat)
    (a : PacAction) (s' : PacmanSearchState) :
    (a, s') ∈ getSuccessors P s g →
    (∃ nd ∈ dirActions, dirSuccessor P s g nd.1 nd.2 = some (a, s')) ∨
    (∃ t, telSuccessor P s g t = some (a, s')) := by
  intro h
  unfold getSuccessors at h
  dsimp only at h
  rcases List.mem_append.mp h with h | h
  · left
    rcases List.mem_filterMap.mp h with ⟨nd, hnd, heq⟩
    exact ⟨nd, hnd, heq⟩
  · right
    by_cases htel : s.pos ∈ rotatedTeleports P (currentRotation s.step_mod_cycle)
    · rw [if_pos htel] at h
      rcases List.mem_filterMap.mp h with ⟨t, _, heq⟩
      exact ⟨t, heq⟩
    · rw [if_neg htel] at h
      simp at h

/-- What a successful directional move returns. -/
theorem dirSuccessor_some_spec (P : PacmanProblem) (s : PacmanSearchState) (g : Nat)
    (name : PacAction) (d : Int × Int) (a : PacAction) (s' : PacmanSearchState)
    (h : dirSuccessor P s g name d = some (a, s')) :
    a = name ∧
    (stepRot P s g (dirTarget s d) (stepBroken P s (dirTarget s d))).pos ∉
      (stepRot P s g (dirTarget s d) (stepBroken P s (dirTarget s d))).ghosts ∧
    s' = { pos := (stepRot P s g (dirTarget s d) (stepBroken P s (dirTarget s d))).pos
           food_left := (stepRot P s g (dirTarget s d) (stepBroken P s (dirTarget s d))).food
           pies_left := (stepRot P s g (dirTarget s d) (stepBroken P s (dirTarget s d))).pies
           pie_timer := stepTimer s (dirTarget s d)
           step_mod_cycle := (s.step_mod_cycle + 1) % ROTATION_CYCLE
           broken_walls := stepBroken P s (dirTarget s d) } := by
  unfold dirSuccessor at h
  dsimp only at h
  unfold dirTarget stepRot stepBroken stepPies stepTimer
  split_ifs at h with h1 h2 h3 h4 h5 <;>
    simp only [Option.some.injEq, Prod.mk.injEq] at h
  all_goals {
    obtain ⟨ha, hs⟩ := h
    subst ha
    subst hs
    refine ⟨rfl, ?_, ?_⟩ <;>
      simp_all
  }

/-- What a successful teleport move returns. -/
theorem telSuccessor_some_spec (P : PacmanProblem) (s : PacmanSearchState) (g : Nat)
    (t : Coordinate) (a : PacAction) (s' : PacmanSearchState)
    (h : telSuccessor P s g t = some (a, s')) :
    a = PacAction.teleportTo t ∧
    (stepRot P s g t s.broken_walls).pos ∉ (stepRot P s g t s.broken_walls).ghosts ∧
    s' = { pos := (stepRot P s g t s.broken_walls).pos
           food_left := (stepRot P s g t s.broken_walls).food
           pies_left := (stepRot P s g t s.broken_walls).pies
           pie_timer := stepTimer s t
           step_mod_cycle := (s.step_mod_cycle + 1) % ROTATION_CYCLE
           broken_walls := s.broken_walls } := by
  unfold telSuccessor at h
  dsimp only at h
  unfold stepRot stepPies stepTimer
  split_ifs at h <;> simp only [Option.some.injEq, Prod.mk.injEq] at h
  all_goals {
    obtain ⟨ha, hs⟩ := h
    subst ha
    subst hs
    refine ⟨rfl, ?_, ?_⟩ <;> simp_all
  }

/-- The ghost set computed by `rotate_after_steps`. -/
theorem rotateAfterSteps_ghosts (P : PacmanProblem) (curRot nextG : Nat)
    (gn : List Coordinate) (pos : Coordinate) (food pies : Finset Coordinate)
    (nsm : Nat) (broken : Finset Coordinate) :
    (rotateAfterSteps P curRot nextG gn pos food pies nsm broken).ghosts =
      if currentRotation nsm = curRot then gn.toFinset
      else (ghostPositions P nextG (currentRotation nsm) broken).toFinset := rfl

/-- The position computed by `rotate_after_steps`. -/
theorem rotateAfterSteps_pos (P : PacmanProblem) (curRot nextG : Nat)
    (gn : List Coordinate) (pos : Coordinate) (food pies : Finset Coordinate)
    (nsm : Nat) (broken : Finset Coordinate) :
    (rotateAfterSteps P curRot nextG gn pos food pies nsm broken).pos =
      (rotateStateComponents P pos food pies curRot (currentRotation nsm)).1 := rfl

/-- The food set computed by `rotate_after_steps`. -/
theorem rotateAfterSteps_food (P : PacmanProblem) (curRot nextG : Nat)
    (gn : List Coordinate) (pos : Coordinate) (food pies : Finset Coordinate)
    (nsm : Nat) (broken : Finset Coordinate) :
    (rotateAfterSteps P curRot nextG gn pos food pies nsm broken).food =
      (rotateStateComponents P pos food pies curRot (currentRotation nsm)).2.1 := rfl

/-- The pie set computed by `rotate_after_steps`. -/
theorem rotateAfterSteps_pies (P : PacmanProblem) (curRot nextG : Nat)
    (gn : List Coordinate) (pos : Coordinate) (food pies : Finset Coordinate)
    (nsm : Nat) (broken : Finset Coordinate) :
    (rotateAfterSteps P curRot nextG gn pos food pies nsm broken).pies =
      (rotateStateComponents P pos food pies curRot (currentRotation nsm)).2.2 := rfl

/-- The food component of `_rotate_state_components`. -/
theorem rotateStateComponents_food (P : PacmanProblem) (pos : Coordinate)
    (food pies : Finset Coordinate) (fromRot toRot : Nat) :
    (rotateStateComponents P pos food pies fromRot toRot).2.1 =
      if fromRot = toRot then food
      else food.image (fun c =>
        transformPos (inverseTransformPos c fromRot P.width P.height) toRot
          P.width P.height) := by
  unfold rotateStateComponents
  split_ifs <;> rfl

/-- The pie component of `_rotate_state_components`. -/
theorem rotateStateComponents_pies (P : PacmanProblem) (pos : Coordinate)
    (food pies : Finset Coordinate) (fromRot toRot : Nat) :
    (rotateStateComponents P pos food pies fromRot toRot).2.2 =
      if fromRot = toRot then pies
      else pies.image (fun c =>
        transformPos (inverseTransformPos c fromRot P.width P.height) toRot
          P.width P.height) := by
  unfold rotateStateComponents
  split_ifs <;> rfl

/-- C2 (amended): a successor's position avoids the ghost positions at its
elapsed-step count computed under the parent's broken-walls set when the
move stays in the same rotation, and under the successor's own broken-walls
set when the move crosses a rotation boundary.  (For same-rotation moves
that do not break a wall the two sets coincide, so the original claim holds
there as well.) -/
theorem no_ghost_overlap_amended :
    ∀ (P : PacmanProblem) (s : PacmanSearchState) (g : Nat) (a : PacAction)
      (s' : PacmanSearchState),
      (a, s') ∈ getSuccessors P s g →
      s'.pos ∉ ghostPositions P (g + 1) (currentRotation s'.step_mod_cycle)
        (if currentRotation s'.step_mod_cycle = currentRotation s.step_mod_cycle
         then s.broken_walls else s'.broken_walls) := by
  intro P s g a s' hmem
  rcases mem_getSuccessors P s g a s' hmem with ⟨nd, _, hd⟩ | ⟨t, ht⟩
  · obtain ⟨_, hng, hs⟩ := dirSuccessor_some_spec P s g nd.1 nd.2 a s' hd
    subst hs
    intro hc
    apply hng
    by_cases hrot : currentRotation ((s.step_mod_cycle + 1) % ROTATION_CYCLE) =
        currentRotation s.step_mod_cycle
    · unfold stepRot
      rw [rotateAfterSteps_ghosts, if_pos hrot]
      rw [if_pos hrot, hrot] at hc
      exact List.mem_toFinset.mpr hc
    · unfold stepRot
      rw [rotateAfterSteps_ghosts, if_neg hrot]
      rw [if_neg hrot] at hc
      exact List.mem_toFinset.mpr hc
  · obtain ⟨_, hng, hs⟩ := telSuccessor_some_spec P s g t a s' ht
    subst hs
    intro hc
    apply hng
    by_cases hrot : currentRotation ((s.step_mod_cycle + 1) % ROTATION_CYCLE) =
        currentRotation s.step_mod_cycle
    · unfold stepRot
      rw [rotateAfterSteps_ghosts, if_pos hrot]
      rw [if_pos hrot, hrot] at hc
      exact List.mem_toFinset.mpr hc
    · unfold stepRot
      rw [rotateAfterSteps_ghosts, if_neg hrot]
      rw [if_neg hrot] at hc
      exact List.mem_toFinset.mpr hc

/-- Re-expressing a (possibly rotated) subset in the base frame keeps it a
subset of the base-frame image of the original set. -/
theorem reframe_subset (P : PacmanProblem) (fromRot toRot : Nat)
    (A B : Finset Coordinate) (hAB : A ⊆ B) :
    (if fromRot = toRot then A
     else A.image (fun c =>
       transformPos (inverseTransformPos c fromRot P.width P.height) toRot
         P.width P.height)).image
        (fun c => inverseTransformPos c toRot P.width P.height) ⊆
      B.image (fun c => inverseTransformPos c fromRot P.width P.height) := by
  split_ifs with h
  · subst h
    exact Finset.image_subset_image hAB
  · rw [Finset.image_image]
    have hcomp : A.image
        ((fun c => inverseTransformPos c toRot P.width P.height) ∘
          (fun c => transformPos (inverseTransformPos c fromRot P.width P.height)
            toRot P.width P.height)) =
        A.image (fun c => inverseTransformPos c fromRot P.width P.height) := by
      apply Finset.image_congr
      intro x _
      simp [Function.comp, inverseTransformPos_transformPos]
    rw [hcomp]
    exact Finset.image_subset_image hAB

/-- C4 (amended): along every generated successor, `broken_walls` only
grows; `food_left` and `pies_left` only shrink once both sides are
re-expressed in the base (rotation-0) frame; and when the move does not
cross a rotation boundary the literal coordinate sets already satisfy
`food_left ⊆` and `pies_left ⊆`.  (Across a rotation boundary the literal
subset relations fail because the coordinates are re-expressed in the new
frame — see the counterexample.) -/
theorem monotonicity_amended :
    ∀ (P : PacmanProblem) (s : PacmanSearchState) (g : Nat) (a : PacAction)
      (s' : PacmanSearchState),
      (a, s') ∈ getSuccessors P s g →
      s.broken_walls ⊆ s'.broken_walls ∧
      s'.food_left.image
          (fun c => inverseTransformPos c (currentRotation s'.step_mod_cycle)
            P.width P.height) ⊆
        s.food_left.image
          (fun c => inverseTransformPos c (currentRotation s.step_mod_cycle)
            P.width P.height) ∧
      s'.pies_left.image
          (fun c => inverseTransformPos c (currentRotation s'.step_mod_cycle)
            P.width P.height) ⊆
        s.pies_left.image
          (fun c => inverseTransformPos c (currentRotation s.step_mod_cycle)
            P.width P.height) ∧
      (currentRotation s'.step_mod_cycle = currentRotation s.step_mod_cycle →
        s'.food_left ⊆ s.food_left ∧ s'.pies_left ⊆ s.pies_left) := by
  intro P s g a s' hmem
  rcases mem_getSuccessors P s g a s' hmem with ⟨nd, _, hd⟩ | ⟨t, ht⟩
  · obtain ⟨_, _, hs⟩ := dirSuccessor_some_spec P s g nd.1 nd.2 a s' hd
    subst hs
    refine ⟨?_, ?_, ?_, ?_⟩
    · unfold stepBroken
      split_ifs
      · exact Finset.subset_insert _ _
      · exact Finset.Subset.refl _
    · unfold stepRot
      rw [rotateAfterSteps_food, rotateStateComponents_food]
      exact reframe_subset P _ _ _ _
        (Finset.erase_subset (dirTarget s nd.2) s.food_left)
    · unfold stepRot
      rw [rotateAfterSteps_pies, rotateStateComponents_pies]
      refine reframe_subset P _ _ _ _ ?_
      unfold stepPies
      split_ifs
      · exact Finset.erase_subset _ _
      · exact Finset.Subset.refl _
    · intro hrot
      unfold stepRot
      rw [rotateAfterSteps_food, rotateStateComponents_food,
        rotateAfterSteps_pies, rotateStateComponents_pies, if_pos hrot.symm,
        if_pos hrot.symm]
      refine ⟨Finset.erase_subset _ _, ?_⟩
      unfold stepPies
      split_ifs
      · exact Finset.erase_subset _ _
      · exact Finset.Subset.refl _
  · obtain ⟨_, _, hs⟩ := telSuccessor_some_spec P s g t a s' ht
    subst hs
    refine ⟨Finset.Subset.refl _, ?_, ?_, ?_⟩
    · unfold stepRot
      rw [rotateAfterSteps_food, rotateStateComponents_food]
      exact reframe_subset P _ _ _ _ (Finset.erase_subset t s.food_left)
    · unfold stepRot
      rw [rotateAfterSteps_pies, rotateStateComponents_pies]
      refine reframe_subset P _ _ _ _ ?_
      unfold stepPies
      split_ifs
      · exact Finset.erase_subset _ _
      · exact Finset.Subset.refl _
    · intro hrot
      unfold stepRot
      rw [rotateAfterSteps_food, rotateStateComponents_food,
        rotateAfterSteps_pies, rotateStateComponents_pies, if_pos hrot.symm,
        if_pos hrot.symm]
      refine ⟨Finset.erase_subset _ _, ?_⟩
      unfold stepPies
      split_ifs
      · exact Finset.erase_subset _ _
      · exact Finset.Subset.refl _

/-- A wall target with no active pie makes the directional move illegal. -/
theorem dirSuccessor_wall_timer_none (P : PacmanProblem) (s : PacmanSearchState)
    (g : Nat) (name : PacAction) (d : Int × Int)
    (hin : 0 ≤ s.pos.1 + d.1 ∧
      s.pos.1 + d.1 < (rotatedDimensions P (currentRotation s.step_mod_cycle)).1 ∧
      0 ≤ s.pos.2 + d.2 ∧
      s.pos.2 + d.2 < (rotatedDimensions P (currentRotation s.step_mod_cycle)).2)
    (hwall : dirTarget s d ∈
      effectiveWalls P (currentRotation s.step_mod_cycle) s.broken_walls)
    (htimer : s.pie_timer = 0) :
    dirSuccessor P s g name d = none := by
  unfold dirSuccessor
  dsimp only
  rw [if_neg (not_not_intro hin), if_pos ⟨hwall, htimer⟩]

/-- C5: a directional move whose in-bounds target is an effective wall is
rejected when `pie_timer = 0`; when `pie_timer > 0` it is accepted unless a
ghost check rejects it, and an accepted move's `broken_walls` is the
parent's plus exactly the wall's base-frame coordinate. -/
theorem wall_break_legality :
    ∀ (P : PacmanProblem) (s : PacmanSearchState) (g : Nat) (name : PacAction)
      (d : Int × Int),
      (name, d) ∈ dirActions →
      (0 ≤ s.pos.1 + d.1 ∧
        s.pos.1 + d.1 < (rotatedDimensions P (currentRotation s.step_mod_cycle)).1 ∧
        0 ≤ s.pos.2 + d.2 ∧
        s.pos.2 + d.2 < (rotatedDimensions P (currentRotation s.step_mod_cycle)).2) →
      dirTarget s d ∈
        effectiveWalls P (currentRotation s.step_mod_cycle) s.broken_walls →
      ((s.pie_timer = 0 → ∀ s', (name, s') ∉ getSuccessors P s g) ∧
       (s.pie_timer ≠ 0 → ∀ a s', dirSuccessor P s g name d = some (a, s') →
         ((name, s') ∈ getSuccessors P s g ∧
          s'.broken_walls = insert
            (inverseTransformPos (dirTarget s d) (currentRotation s.step_mod_cycle)
              P.width P.height) s.broken_walls)) ∧
       (s.pie_timer ≠ 0 → dirSuccessor P s g name d = none →
         ((dirTarget s d ∈
             ghostPositions P g (currentRotation s.step_mod_cycle) s.broken_walls ∨
           dirTarget s d ∈
             ghostPositions P (g + 1) (currentRotation s.step_mod_cycle)
               s.broken_walls) ∨
          (dirTarget s d, s.pos) ∈
            (ghostPositions P g (currentRotation s.step_mod_cycle)
              s.broken_walls).zip
              (ghostPositions P (g + 1) (currentRotation s.step_mod_cycle)
                s.broken_walls) ∨
          (stepRot P s g (dirTarget s d) (stepBroken P s (dirTarget s d))).pos ∈
            (stepRot P s g (dirTarget s d) (stepBroken P s (dirTarget s d))).ghosts))) := by
  intro P s g name d hnd hin hwall
  refine ⟨?_, ?_, ?_⟩
  · intro htimer s' hmem
    rcases mem_getSuccessors P s g name s' hmem with ⟨nd', hnd', hd⟩ | ⟨t, ht⟩
    · have ha := (dirSuccessor_some_spec P s g nd'.1 nd'.2 name s' hd).1
      have hdd : nd' = (name, d) := by
        fin_cases hnd <;> fin_cases hnd' <;>
          first
          | rfl
          | exact absurd ha (by decide)
      rw [hdd] at hd
      rw [dirSuccessor_wall_timer_none P s g name d hin hwall htimer] at hd
      exact Option.noConfusion hd
    · have ha := (telSuccessor_some_spec P s g t name s' ht).1
      fin_cases hnd <;> exact PacAction.noConfusion ha
  · intro _ a s' hd
    obtain ⟨ha, _, hs⟩ := dirSuccessor_some_spec P s g name d a s' hd
    subst ha
    constructor
    · unfold getSuccessors
      dsimp only
      exact List.mem_append_left _
        (List.mem_filterMap.mpr ⟨(a, d), hnd, hd⟩)
    · rw [hs]
      unfold stepBroken
      rw [if_pos hwall]
  · intro htimer hnone
    have hwall' : (s.pos.1 + d.1, s.pos.2 + d.2) ∈
        effectiveWalls P (currentRotation s.step_mod_cycle) s.broken_walls := hwall
    unfold dirSuccessor at hnone
    dsimp only at hnone
    rw [if_neg (not_not_intro hin),
      if_neg (fun hc : _ ∧ s.pie_timer = 0 => htimer hc.2),
      if_pos hwall'] at hnone
    split_ifs at hnone with hg hsw hpie hf1 hf2
    all_goals
      first
      | exact Or.inl hg
      | exact Or.inr (Or.inl hsw)
      | (refine Or.inr (Or.inr ?_)
         unfold stepRot stepBroken stepPies dirTarget
         rw [if_pos hwall', if_pos hpie]
         exact hf1)
      | (refine Or.inr (Or.inr ?_)
         unfold stepRot stepBroken stepPies dirTarget
         rw [if_pos hwall', if_neg hpie]
         exact hf2)
      | simp at hnone

/-- C1 (code-bug evidence): on `P1` the heuristic of the initial state is
9, yet three `East` moves (pie at `(2,2)`, wall `(3,2)` broken, food
`(4,2)` eaten) reach a goal state — the true optimal remaining cost is at
most 3, so `pacman_heuristic` overestimates: with an uneaten pie on the
board and `pie_timer = 0`, the BFS distances ignore that walls can still be
broken, breaking admissibility. -/
theorem heuristic_inadmissible_on_pie_layout :
    pacmanHeuristic (getInitialState P1) P1 = 9 ∧
    applyPlan P1 (getInitialState P1) 0
        [PacAction.East, PacAction.East, PacAction.East] =
      some { pos := (4, 2), food_left := ∅, pies_left := ∅, pie_timer := 3,
             step_mod_cycle := 3, broken_walls := {(3, 2)} } ∧
    isGoal P1 { pos := (4, 2), food_left := ∅, pies_left := ∅, pie_timer := 3,
                step_mod_cycle := 3, broken_walls := {(3, 2)} } = true := by
  decide

/-- C2 (counterexample): on `P2`, two reachable `North` moves eat the pie
and break the wall `(3,1)`; the returned state sits at `(3,1)` with its own
`broken_walls = {(3,1)}` — and under that broken-walls set the ghost's
corridor now extends to `(3,1)`, where the ghost stands at elapsed step 2.
The checks in `get_successors` used the parent's broken-walls set, so the
claimed invariant under the state's own set fails. -/
theorem ghost_overlap_after_wall_break :
    let s1 : PacmanSearchState :=
      { pos := (3, 2), food_left := ∅, pies_left := ∅, pie_timer := 5,
        step_mod_cycle := 1, broken_walls := ∅ }
    let s2 : PacmanSearchState :=
      { pos := (3, 1), food_left := ∅, pies_left := ∅, pie_timer := 4,
        step_mod_cycle := 2, broken_walls := {(3, 1)} }
    (PacAction.North, s1) ∈ getSuccessors P2 (getInitialState P2) 0 ∧
    (PacAction.North, s2) ∈ getSuccessors P2 s1 1 ∧
    s2.pos ∈ ghostPositions P2 (1 + 1) (currentRotation s2.step_mod_cycle)
      s2.broken_walls := by
  decide

/-- Witness for the amended C2, at the first `North` move of `P2` (a
same-rotation move, so the parent's broken-walls set is used). -/
theorem no_ghost_overlap_amended_witness :
    let s1 : PacmanSearchState :=
      { pos := (3, 2), food_left := ∅, pies_left := ∅, pie_timer := 5,
        step_mod_cycle := 1, broken_walls := ∅ }
    s1.pos ∉ ghostPositions P2 (0 + 1) (currentRotation s1.step_mod_cycle)
      (if currentRotation s1.step_mod_cycle =
          currentRotation (getInitialState P2).step_mod_cycle
       then (getInitialState P2).broken_walls else s1.broken_walls) := by
  exact no_ghost_overlap_amended P2 (getInitialState P2) 0 PacAction.North _
    (by decide)

/-- C4 (counterexample): on `P4` the agent shuttles `East`/`West` for 29
steps, then the 30th move (`West`) crosses the rotation boundary; the food
coordinate is re-expressed from `(1,3)` to `(3,4)` in the new frame, so
`food_left ⊆ food_left(parent)` fails on the literal coordinate sets. -/
theorem food_subset_fails_across_rotation :
    let plan := List.join (List.replicate 14 [PacAction.East, PacAction.West]) ++
      [PacAction.East]
    let s29 : PacmanSearchState :=
      { pos := (2, 1), food_left := {(1, 3)}, pies_left := ∅, pie_timer := 0,
        step_mod_cycle := 29, broken_walls := ∅ }
    let s30 : PacmanSearchState :=
      { pos := (1, 4), food_left := {(3, 4)}, pies_left := ∅, pie_timer := 0,
        step_mod_cycle := 30, broken_walls := ∅ }
    applyPlan P4 (getInitialState P4) 0 plan = some s29 ∧
    (PacAction.West, s30) ∈ getSuccessors P4 s29 29 ∧
    ¬ s30.food_left ⊆ s29.food_left := by
  decide

/-- Witness for the amended C4, at the rotation-crossing `West` move of
`P4`. -/
theorem monotonicity_amended_witness :
    let s29 : PacmanSearchState :=
      { pos := (2, 1), food_left := {(1, 3)}, pies_left := ∅, pie_timer := 0,
        step_mod_cycle := 29, broken_walls := ∅ }
    let s30 : PacmanSearchState :=
      { pos := (1, 4), food_left := {(3, 4)}, pies_left := ∅, pie_timer := 0,
        step_mod_cycle := 30, broken_walls := ∅ }
    s29.broken_walls ⊆ s30.broken_walls ∧
    s30.food_left.image
        (fun c => inverseTransformPos c (currentRotation s30.step_mod_cycle)
          P4.width P4.height) ⊆
      s29.food_left.image
        (fun c => inverseTransformPos c (currentRotation s29.step_mod_cycle)
          P4.width P4.height) ∧
    s30.pies_left.image
        (fun c => inverseTransformPos c (currentRotation s30.step_mod_cycle)
          P4.width P4.height) ⊆
      s29.pies_left.image
        (fun c => inverseTransformPos c (currentRotation s29.step_mod_cycle)
          P4.width P4.height) ∧
    (currentRotation s30.step_mod_cycle = currentRotation s29.step_mod_cycle →
      s30.food_left ⊆ s29.food_left ∧ s30.pies_left ⊆ s29.pies_left) := by
  exact monotonicity_amended P4 _ 29 PacAction.West _ (by decide)

/-- Witness for C5 on `P1`: with an active pie the East move into the wall
`(3,2)` is accepted and records exactly that wall (base frame) as broken. -/
theorem wall_break_legality_witness :
    let s1 : PacmanSearchState :=
      { pos := (2, 2), food_left := {(4, 2)}, pies_left := ∅, pie_timer := 5,
        step_mod_cycle := 1, broken_walls := ∅ }
    let s2 : PacmanSearchState :=
      { pos := (3, 2), food_left := {(4, 2)}, pies_left := ∅, pie_timer := 4,
        step_mod_cycle := 2, broken_walls := {(3, 2)} }
    (PacAction.East, s2) ∈ getSuccessors P1 s1 1 ∧
    s2.broken_walls = insert
      (inverseTransformPos (dirTarget s1 (1, 0)) (currentRotation s1.step_mod_cycle)
        P1.width P1.height) s1.broken_walls := by
  exact (wall_break_legality P1 _ 1 PacAction.East (1, 0) (by decide) (by decide)
    (by decide)).2.1 (by decide) PacAction.East _ (by decide)

end PacmanSpec

